import Mathlib

/-!
Verification development for the cursor-agent wrapper
(`src/cursor-agent-wrapper.py`): a shallow embedding of its output
reconstruction (`clean_output`), pattern waiter (`wait_for_pattern`) and
monitoring loop (`run_cursor_agent`), with theorems settling the frozen
claims about them.

Strings from the Python program are modelled as `List Char`; the byte
stream read from the child process is modelled as a list of read events.
-/

/-! ### Python string helpers -/

/-- Substring test: Python's `needle in haystack`. -/
def containsSub (s pat : List Char) : Bool := decide (pat <:+: s)

/-- The characters Python's `str.strip()` (and the regex class `\s` in
Unicode mode) treats as whitespace. -/
def isPyWs (c : Char) : Bool :=
  c = ' ' || c = '\t' || c = '\n' || c = '\x0b' || c = '\x0c' || c = '\r' ||
  c = '\x1c' || c = '\x1d' || c = '\x1e' || c = '\x1f' ||
  c = '\x85' || c = '\xa0' || c = '\u1680' ||
  (decide (0x2000 ≤ c.toNat) && decide (c.toNat ≤ 0x200a)) ||
  c = '\u2028' || c = '\u2029' || c = '\u202f' || c = '\u205f' || c = '\u3000'

/-- Python `line.strip()`: drop leading and trailing whitespace. -/
def pyStrip (l : List Char) : List Char :=
  ((l.dropWhile isPyWs).reverse.dropWhile isPyWs).reverse

/-! ### Control-sequence stripping (`clean_output`, lines 35-41)

`re.sub(r'\x1b\[[0-9;]*[A-Za-z]', '', text)`, then
`re.sub(r'\x1b\[[0-9;]*m', '', text)`, then
`re.sub(r'\x1b\][^\x07]*\x07', '', text)`, then removal of `\x0d`/`\r`.
`re.sub` scans left to right; on a failed match attempt it advances one
character. -/

/-- Consume the `[0-9;]*` parameter bytes of a CSI sequence, then a final
byte satisfying `fin`; return the remainder on success. -/
def munchCSI (fin : Char → Bool) : List Char → Option (List Char)
  | [] => none
  | c :: rest =>
    if c.isDigit || c = ';' then munchCSI fin rest
    else if fin c then some rest
    else none

/-- Remove every match of `\x1b\[[0-9;]*F` where `F` satisfies `fin`
(for the first regex `fin` is `[A-Za-z]`, for the second it is `m`).
Structural recursion on a fuel argument so that the kernel can evaluate
it; a fuel of `l.length` is enough because every step consumes at least
one character, and when the fuel is 0 the list is already empty. -/
def stripCSIF (fin : Char → Bool) : Nat → List Char → List Char
  | 0, l => l
  | _ + 1, [] => []
  | n + 1, '\x1b' :: '[' :: rest =>
    match munchCSI fin rest with
    | some rest2 => stripCSIF fin n rest2
    | none => '\x1b' :: stripCSIF fin n ('[' :: rest)
  | n + 1, c :: rest => c :: stripCSIF fin n rest

def stripCSI (fin : Char → Bool) (l : List Char) : List Char :=
  stripCSIF fin l.length l

/-- Consume `[^\x07]*\x07`: everything through the first BEL;
return the remainder on success. -/
def findBel : List Char → Option (List Char)
  | [] => none
  | c :: rest => if c = '\x07' then some rest else findBel rest

/-- Remove every match of the OSC regex `\x1b\][^\x07]*\x07`
(fuel-structured like `stripCSIF`). -/
def stripOscF : Nat → List Char → List Char
  | 0, l => l
  | _ + 1, [] => []
  | n + 1, '\x1b' :: ']' :: rest =>
    match findBel rest with
    | some rest2 => stripOscF n rest2
    | none => '\x1b' :: stripOscF n (']' :: rest)
  | n + 1, c :: rest => c :: stripOscF n rest

def stripOsc (l : List Char) : List Char := stripOscF l.length l

/-- Lines 35-41 of `clean_output`: strip ANSI escape sequences, OSC
sequences, and carriage returns. -/
def preprocess (l : List Char) : List Char :=
  (stripOsc (stripCSI (fun c => c = 'm') (stripCSI Char.isAlpha l))).filter
    (fun c => c ≠ '\x0d')

/-! ### Line filters (`clean_output`, lines 44-103) -/

/-- The fixed denylist of interface-chrome substrings (lines 57-62). -/
def denyList : List (List Char) :=
  ["Auto-run", "shift+tab", "/ commands", "@ files", "! shell",
   "Claude 4.5", "Claude 3", "Generating", "Thinking", "Running",
   "tokens", "ctrl+c", "ctrl+o", "INSERT", "Plan, search, build",
   "truncated", "Add a follow-up"].map String.toList

/-- `any(skip in stripped for skip in [...])` (line 57). -/
def hasDeny (s : List Char) : Bool := denyList.any (fun d => containsSub s d)

/-- Characters of the box-drawing class `[│┌┐└┘├┤┬┴┼─\s→]` (line 66). -/
def isBoxWs (c : Char) : Bool :=
  ['│', '┌', '┐', '└', '┘', '├', '┤', '┬', '┴', '┼', '─', '→'].contains c
    || isPyWs c

/-- `re.match(r'^[│┌┐└┘├┤┬┴┼─\s→]+', stripped)` (line 66): at least one
leading character from the class. -/
def boxStart : List Char → Bool
  | [] => false
  | c :: _ => isBoxWs c

/-- `stripped.startswith('│') or stripped.startswith('→')` (line 68). -/
def barStart : List Char → Bool
  | [] => false
  | c :: _ => c = '│' || c = '→'

/-- Python regex `\w` on the characters the program encounters. -/
def isWordChar (c : Char) : Bool := c.isAlphanum || c = '_'

/-- `re.match(r'^/\w+', stripped)` (line 72). -/
def cmdLine : List Char → Bool
  | '/' :: c :: _ => isWordChar c
  | _ => false

/-- Characters of the marker class `[⬡⬢⬣▶︎■•\s]` (lines 76 and 88); the
Python literal holds U+25B6 followed by variation selector U+FE0E. -/
def isMarkerWs (c : Char) : Bool :=
  ['⬡', '⬢', '⬣', '▶', '︎', '■', '•'].contains c || isPyWs c

/-- `re.match(r'^[⬡⬢⬣▶︎■•\s]+$', stripped)` (line 76): a non-empty line
made only of marker-class characters. -/
def markerOnly (s : List Char) : Bool := !s.isEmpty && s.all isMarkerWs

/-- `re.match(r'^\$.*\d+ms$', stripped)` (line 80): starts with `$` and
ends with a digit followed by `ms`. -/
def shellTiming (s : List Char) : Bool :=
  match s with
  | '$' :: rest =>
    match rest.reverse with
    | 's' :: 'm' :: d :: _ => d.isDigit
    | _ => false
  | _ => false

/-- Consume `\d+`: at least one digit, then all following digits. -/
def munchDigits : List Char → Option (List Char)
  | [] => none
  | c :: rest => if c.isDigit then some (rest.dropWhile Char.isDigit) else none

/-- `re.match(r'^\(\d+\.\d+\.\d+\)$', stripped)` (line 84). -/
def versionFrag (s : List Char) : Bool :=
  match s with
  | '(' :: rest =>
    match munchDigits rest with
    | some ('.' :: r2) =>
      match munchDigits r2 with
      | some ('.' :: r3) =>
        match munchDigits r3 with
        | some [')'] => true
        | _ => false
      | _ => false
    | _ => false
  | _ => false

/-- The disjunction of all skip conditions applied to the stripped line
(lines 57-84); `true` means the line is discarded. -/
def lineFilter (stripped : List Char) : Bool :=
  hasDeny stripped || boxStart stripped || barStart stripped ||
  cmdLine stripped || markerOnly stripped || shellTiming stripped ||
  versionFrag stripped

/-- `re.sub(r'^[⬡⬢⬣▶︎■•\s]+', '', stripped)` (line 88): remove leading
bullet and marker glyphs. -/
def dropMarkers (s : List Char) : List Char := s.dropWhile isMarkerWs

/-- Lines 96-100: drop the line when the original prompt is available
(truthy, i.e. non-empty) and the line equals the prompt, is a substring
of the prompt, or is a prefix of the prompt
(`original_prompt.startswith(cleaned)`). -/
def promptFilter (p : Option (List Char)) (cleaned : List Char) : Bool :=
  match p with
  | none => false
  | some pp =>
    if pp.isEmpty then false
    else decide (cleaned = pp) || decide (cleaned <:+: pp) ||
         decide (cleaned <+: pp)

/-- One iteration of the `for line in lines` loop (lines 50-103), with
`acc` the accumulated `content_lines`; membership in `acc` coincides
with membership in the Python `seen_content` set because both are
extended together (lines 102-103). -/
def contentStep (p : Option (List Char)) (acc : List (List Char))
    (line : List Char) : List (List Char) :=
  if (pyStrip line).isEmpty then acc
  else if lineFilter (pyStrip line) then acc
  else if (dropMarkers (pyStrip line)).isEmpty then acc
  else if decide (dropMarkers (pyStrip line) ∈ acc) then acc
  else if promptFilter p (dropMarkers (pyStrip line)) then acc
  else acc ++ [dropMarkers (pyStrip line)]

/-- The `content_lines` list built by the loop at lines 50-103. -/
def contentLines (p : Option (List Char)) (lines : List (List Char)) :
    List (List Char) :=
  lines.foldl (contentStep p) []

/-! ### Incremental-redraw collapsing (`clean_output`, lines 105-117) -/

/-- The inner run-collapsing scan: `line` is the current accumulated
line; a following line that starts with `line[:min(20, len(line))]`
replaces it, otherwise the run ends, `line` is emitted, and a new run
starts at that following line. -/
def collapseAux (line : List Char) : List (List Char) → List (List Char)
  | [] => [line]
  | x :: rest =>
    if (line.take 20).isPrefixOf x then collapseAux x rest
    else line :: collapseAux x rest

/-- The whole `while i < len(content_lines)` loop (lines 107-117). -/
def collapse : List (List Char) → List (List Char)
  | [] => []
  | l :: rest => collapseAux l rest

/-! ### `clean_output` assembled -/

/-- The ordered final lines produced by `clean_output` on transcript `t`
with prompt `p`. -/
def finalLinesL (t : List Char) (p : Option (List Char)) :
    List (List Char) :=
  collapse (contentLines p ((preprocess t).splitOn '\n'))

/-- `'\n'.join(final_lines)` (line 119). -/
def joinLines (ls : List (List Char)) : List Char :=
  List.intercalate ['\n'] ls

/-- List-level `clean_output`. -/
def cleanOutputL (t : List Char) (p : Option (List Char)) : List Char :=
  joinLines (finalLinesL t p)

/-- `clean_output(text, original_prompt)` (lines 31-119). -/
def clean_output (t : String) (p : Option String) : String :=
  ⟨cleanOutputL t.toList (p.map String.toList)⟩

/-! ### Invariants of the content-line extraction -/

theorem dropWhile_head_not (p : Char → Bool) :
    ∀ (l : List Char) (c : Char) (r : List Char),
      l.dropWhile p = c :: r → p c = false := by
  intro l
  induction l with
  | nil => intro c r h; simp [List.dropWhile] at h
  | cons a t ih =>
    intro c r h
    rw [List.dropWhile_cons] at h
    split at h
    · exact ih c r h
    · cases h
      rename_i hpa
      simpa using hpa

theorem dropWhile_eq_self_of_head (p : Char → Bool) (l : List Char)
    (h : ∀ c r, l = c :: r → p c = false) : l.dropWhile p = l := by
  cases l with
  | nil => rfl
  | cons c r => rw [List.dropWhile_cons, h c r rfl]; simp

/-- Whitespace characters are in the bullet/marker class, so a string
with no leading marker character has no leading whitespace either. -/
theorem pyWs_markerWs {c : Char} (h : isPyWs c = true) :
    isMarkerWs c = true := by
  simp [isMarkerWs, h]

/-- `cleaned` (the stripped line with leading markers removed) is its
own Python `strip()`. -/
theorem pyStrip_fix_of_cleaned (line : List Char) :
    pyStrip (dropMarkers (pyStrip line)) = dropMarkers (pyStrip line) := by
  have h1 : (dropMarkers (pyStrip line)).dropWhile isPyWs =
      dropMarkers (pyStrip line) := by
    apply dropWhile_eq_self_of_head
    intro c r hcr
    have hm : isMarkerWs c = false :=
      dropWhile_head_not isMarkerWs (pyStrip line) c r hcr
    cases hpy : isPyWs c with
    | false => rfl
    | true => rw [pyWs_markerWs hpy] at hm; cases hm
  have hsuf : dropMarkers (pyStrip line) <:+ pyStrip line :=
    List.dropWhile_suffix isMarkerWs
  have hpre : (dropMarkers (pyStrip line)).reverse <+: (pyStrip line).reverse :=
    List.reverse_prefix.mpr hsuf
  have hSrev : (pyStrip line).reverse =
      (line.dropWhile isPyWs).reverse.dropWhile isPyWs := by
    unfold pyStrip
    rw [List.reverse_reverse]
  have h2 : (dropMarkers (pyStrip line)).reverse.dropWhile isPyWs =
      (dropMarkers (pyStrip line)).reverse := by
    apply dropWhile_eq_self_of_head
    intro c r hcr
    obtain ⟨u, hu⟩ := hpre
    rw [hcr] at hu
    have hhead : (line.dropWhile isPyWs).reverse.dropWhile isPyWs =
        c :: (r ++ u) := by
      rw [← hSrev, ← hu]
      simp
    exact dropWhile_head_not isPyWs _ c (r ++ u) hhead
  show ((( dropMarkers (pyStrip line)).dropWhile isPyWs).reverse.dropWhile
      isPyWs).reverse = dropMarkers (pyStrip line)
  rw [h1, h2, List.reverse_reverse]

/-- A suffix of a line with no denylisted substring has none either. -/
theorem hasDeny_of_suffix {s t : List Char} (hsuf : s <:+ t)
    (ht : hasDeny t = false) : hasDeny s = false := by
  cases h : hasDeny s with
  | false => rfl
  | true =>
    exfalso
    simp only [hasDeny, containsSub, List.any_eq_true, decide_eq_true_eq] at h
    obtain ⟨d, hd, hinf⟩ := h
    have htrue : hasDeny t = true := by
      simp only [hasDeny, containsSub, List.any_eq_true, decide_eq_true_eq]
      exact ⟨d, hd, List.IsInfix.trans hinf (List.IsSuffix.isInfix hsuf)⟩
    rw [ht] at htrue
    cases htrue

/-- The properties every entry of `content_lines` enjoys by
construction. -/
def GoodLine (p : Option (List Char)) (c : List Char) : Prop :=
  c ≠ [] ∧ hasDeny c = false ∧ dropMarkers c = c ∧ pyStrip c = c ∧
  promptFilter p c = false

theorem contentStep_good (p : Option (List Char)) (acc : List (List Char))
    (line : List Char) (hg : ∀ c ∈ acc, GoodLine p c) :
    ∀ c ∈ contentStep p acc line, GoodLine p c := by
  intro c hc
  unfold contentStep at hc
  split at hc
  · exact hg c hc
  · split at hc
    · exact hg c hc
    · split at hc
      · exact hg c hc
      · split at hc
        · exact hg c hc
        · split at hc
          · exact hg c hc
          · rename_i hne hfilter hcne _ hprompt
            rw [List.mem_append, List.mem_singleton] at hc
            rcases hc with hc | hc
            · exact hg c hc
            · subst hc
              refine ⟨?_, ?_, ?_, ?_, ?_⟩
              · intro h0
                rw [h0] at hcne
                simp at hcne
              · have hdeny : hasDeny (pyStrip line) = false := by
                  simp only [lineFilter, Bool.or_eq_true] at hfilter
                  cases h : hasDeny (pyStrip line) with
                  | false => rfl
                  | true => exact absurd (Or.inl (Or.inl (Or.inl (Or.inl
                      (Or.inl (Or.inl h)))))) hfilter
                exact hasDeny_of_suffix (List.dropWhile_suffix isMarkerWs) hdeny
              · exact List.dropWhile_idempotent isMarkerWs (pyStrip line)
              · exact pyStrip_fix_of_cleaned line
              · simpa using hprompt

theorem contentStep_nodup (p : Option (List Char)) (acc : List (List Char))
    (line : List Char) (h : acc.Nodup) : (contentStep p acc line).Nodup := by
  unfold contentStep
  split
  · exact h
  · split
    · exact h
    · split
      · exact h
      · split
        · exact h
        · split
          · exact h
          · rename_i hmem _
            rw [List.nodup_append]
            refine ⟨h, List.nodup_singleton _, ?_⟩
            intro a ha hamem
            rw [List.mem_singleton] at hamem
            subst hamem
            exact absurd ha (by simpa using hmem)

theorem contentLines_fold (p : Option (List Char)) :
    ∀ (lines : List (List Char)) (acc : List (List Char)),
      (∀ c ∈ acc, GoodLine p c) → acc.Nodup →
      (∀ c ∈ lines.foldl (contentStep p) acc, GoodLine p c) ∧
        (lines.foldl (contentStep p) acc).Nodup := by
  intro lines
  induction lines with
  | nil => intro acc h1 h2; exact ⟨h1, h2⟩
  | cons l rest ih =>
    intro acc h1 h2
    rw [List.foldl_cons]
    exact ih _ (contentStep_good p acc l h1) (contentStep_nodup p acc l h2)

theorem contentLines_good {p : Option (List Char)}
    {lines : List (List Char)} {c : List Char}
    (h : c ∈ contentLines p lines) : GoodLine p c :=
  (contentLines_fold p lines [] (by simp) List.nodup_nil).1 c h

theorem contentLines_nodup (p : Option (List Char))
    (lines : List (List Char)) : (contentLines p lines).Nodup :=
  (contentLines_fold p lines [] (by simp) List.nodup_nil).2

/-! ### Properties of the redraw-collapsing pass -/

theorem collapseAux_sublist :
    ∀ (rest : List (List Char)) (line : List Char),
      List.Sublist (collapseAux line rest) (line :: rest) := by
  intro rest
  induction rest with
  | nil => intro line; simp [collapseAux]
  | cons x rs ih =>
    intro line
    unfold collapseAux
    split
    · exact (ih x).trans ((x :: rs).sublist_cons_self line)
    · exact (ih x).cons₂ line

theorem collapse_sublist : ∀ L : List (List Char), List.Sublist (collapse L) L := by
  intro L
  cases L with
  | nil => exact List.Sublist.refl []
  | cons l rest => exact collapseAux_sublist rest l

/-- Every final line of `clean_output` is one of the content lines, and
hence satisfies all their invariants. -/
theorem finalLinesL_good {t : List Char} {p : Option (List Char)}
    {c : List Char} (h : c ∈ finalLinesL t p) : GoodLine p c :=
  contentLines_good ((collapse_sublist _).subset h)

/-! ### Claims about the Output Reconstructor -/

/-- C3: feeding the reconstructor a transcript whose surviving content
lines are `Hel`, `Hell`, `Hello world` (in that order) yields exactly
one output line, `Hello world`: an incremental-typing run collapses to
its longest member. -/
theorem C3_redraw_collapsing :
    contentLines none (("Hel\nHell\nHello world".toList).splitOn '\n') =
      ["Hel".toList, "Hell".toList, "Hello world".toList] ∧
    finalLinesL "Hel\nHell\nHello world".toList none =
      ["Hello world".toList] ∧
    clean_output "Hel\nHell\nHello world" none = "Hello world" := by
  decide

/-- C4 counterexample: a line of which the prompt is a proper prefix
(a line starting with the full prompt text) is NOT dropped: with prompt
`list files`, the transcript line `list files are shown` survives into
the output, although it starts with the prompt. -/
theorem C4_counterexample :
    clean_output "list files are shown" (some "list files") =
      "list files are shown" ∧
    ("list files".toList <+: "list files are shown".toList) := by
  decide

/-- C4 (amended): every candidate line that equals the prompt, is a
substring of the prompt, or is a prefix of the prompt
(`original_prompt.startswith(cleaned)`) is dropped from the
reconstructed output; lines of which the prompt is a prefix are kept. -/
theorem C4_prompt_echo_suppression (t p c : List Char)
    (h : c ∈ finalLinesL t (some p)) :
    c ≠ p ∧ ¬ (c <:+: p) ∧ ¬ (c <+: p) := by
  obtain ⟨hne, _, _, _, hprompt⟩ := finalLinesL_good h
  cases hpe : p.isEmpty with
  | true =>
    have hp : p = [] := by simpa using hpe
    subst hp
    refine ⟨fun hcp => hne hcp, fun hinf => hne (by simpa using hinf),
      fun hpre => hne (by simpa using hpre)⟩
  | false =>
    have hprompt2 : (decide (c = p) || decide (c <:+: p) ||
        decide (c <+: p)) = false := by
      simpa [promptFilter, hpe] using hprompt
    simp only [Bool.or_eq_false_iff, decide_eq_false_iff_not] at hprompt2
    exact ⟨hprompt2.1.1, hprompt2.1.2, hprompt2.2⟩

/-- Witness for C4: the line `alpha` survives against prompt `beta` and
is indeed neither the prompt, a substring of it, nor a prefix of it. -/
theorem C4_prompt_echo_suppression_w :
    "alpha".toList ≠ "beta".toList ∧
    ¬ ("alpha".toList <:+: "beta".toList) ∧
    ¬ ("alpha".toList <+: "beta".toList) :=
  C4_prompt_echo_suppression "alpha".toList "beta".toList "alpha".toList
    (by decide)

/-- C5 counterexample: the reconstructor is not idempotent.  On this
transcript the first pass yields two lines whose 20-character leading
fragments coincide only after the middle line is collapsed away, so a
second pass collapses further and the results differ. -/
theorem C5_counterexample :
    clean_output
        (clean_output
          "Hello world this is a long line\nHe\nHello world this is a test"
          none) none ≠
      clean_output
        "Hello world this is a long line\nHe\nHello world this is a test"
        none := by
  decide

/-- C5 (amended): reconstruction is not idempotent in general (a second
pass may collapse additional incremental-typing runs, as the
counterexample shows); it is idempotent whenever the first result is
left unchanged by each pipeline stage: control stripping, per-line
filtering, and redraw collapsing. -/
theorem C5_conditional_idempotence (t : List Char) (p : Option (List Char))
    (h1 : preprocess (cleanOutputL t p) = cleanOutputL t p)
    (h2 : contentLines p ((cleanOutputL t p).splitOn '\n') =
      (cleanOutputL t p).splitOn '\n')
    (h3 : collapse ((cleanOutputL t p).splitOn '\n') =
      (cleanOutputL t p).splitOn '\n') :
    cleanOutputL (cleanOutputL t p) p = cleanOutputL t p := by
  show joinLines (collapse (contentLines p
      ((preprocess (cleanOutputL t p)).splitOn '\n'))) = cleanOutputL t p
  rw [h1, h2, h3]
  exact List.intercalate_splitOn (cleanOutputL t p) '\n'

/-- Witness for C5: on the transcript `hello\nworld` the three
fixed-point hypotheses hold, and a second reconstruction returns the
first result unchanged. -/
theorem C5_conditional_idempotence_w :
    cleanOutputL (cleanOutputL "hello\nworld".toList none) none =
      cleanOutputL "hello\nworld".toList none :=
  C5_conditional_idempotence "hello\nworld".toList none (by decide)
    (by decide) (by decide)

/-- C10: every line of the reconstructed output is non-empty after
trimming, contains no denylisted chrome substring, has no leading
bullet/marker glyphs (stripping them again changes nothing), and the
output lines are pairwise distinct. -/
theorem C10_output_line_invariants (t : List Char) (p : Option (List Char)) :
    (∀ c ∈ finalLinesL t p,
        pyStrip c ≠ [] ∧ hasDeny c = false ∧ dropMarkers c = c) ∧
    (finalLinesL t p).Nodup := by
  constructor
  · intro c hc
    obtain ⟨hne, hdeny, hmark, hstrip, _⟩ := finalLinesL_good hc
    refine ⟨?_, hdeny, hmark⟩
    rw [hstrip]
    exact hne
  · exact (contentLines_nodup _ _).sublist (collapse_sublist _)

/-- Witness for C10: the single output line of transcript `hi`
satisfies the invariants. -/
theorem C10_output_line_invariants_w :
    pyStrip "hi".toList ≠ [] ∧ hasDeny "hi".toList = false ∧
      dropMarkers "hi".toList = "hi".toList :=
  (C10_output_line_invariants "hi".toList none).1 "hi".toList (by decide)

/-! ### `wait_for_pattern` (lines 122-149)

The child's byte stream is modelled as a list of read events: each
`read_nonblocking` call either returns a chunk, times out, raises EOF,
or is preceded by a failed `isalive()` check.  One loop iteration
consumes one event and one unit of the overall timeout budget; once the
event list is exhausted, remaining iterations behave as per-read
timeouts until the overall timeout expires. -/

inductive WEv where
  | chunk (s : List Char)
  | timeout
  | eof
  | died
deriving DecidableEq, Repr

/-- The concatenation of all chunk contents of an event list: what has
been captured after consuming exactly those events. -/
def capturedOf : List WEv → List Char
  | [] => []
  | WEv.chunk s :: rest => s ++ capturedOf rest
  | _ :: rest => capturedOf rest

/-- The `while time.time() - start < timeout` loop of
`wait_for_pattern`, with `buf` the accumulated buffer. -/
def wfpAux (pats : List (List Char)) : Nat → List WEv → List Char →
    List Char
  | 0, _, buf => buf
  | n + 1, [], buf => wfpAux pats n [] buf
  | _ + 1, WEv.died :: _, buf => buf
  | _ + 1, WEv.eof :: _, buf => buf
  | n + 1, WEv.timeout :: rest, buf => wfpAux pats n rest buf
  | n + 1, WEv.chunk s :: rest, buf =>
    if pats.any (fun p => containsSub (buf ++ s) p) then buf ++ s
    else wfpAux pats n rest (buf ++ s)

/-- `wait_for_pattern(child, patterns, timeout)`: returns the captured
buffer on pattern match, overall timeout, EOF, or process death. -/
def waitForPattern (evs : List WEv) (pats : List (List Char))
    (timeout : Nat) : List Char :=
  wfpAux pats timeout evs []

theorem wfpAux_nil (pats : List (List Char)) :
    ∀ (n : Nat) (buf : List Char), wfpAux pats n [] buf = buf := by
  intro n
  induction n with
  | zero => intro buf; rfl
  | succ m ih => intro buf; rw [wfpAux]; exact ih buf

theorem wfpAux_captured (pats : List (List Char)) :
    ∀ (n : Nat) (evs : List WEv) (buf : List Char),
      ∃ k, wfpAux pats n evs buf = buf ++ capturedOf (evs.take k) := by
  intro n
  induction n with
  | zero =>
    intro evs buf
    exact ⟨0, by simp [wfpAux, capturedOf]⟩
  | succ m ih =>
    intro evs buf
    cases evs with
    | nil => exact ⟨0, by simp [wfpAux_nil, capturedOf]⟩
    | cons e rest =>
      cases e with
      | died => exact ⟨0, by simp [wfpAux, capturedOf]⟩
      | eof => exact ⟨0, by simp [wfpAux, capturedOf]⟩
      | timeout =>
        obtain ⟨k, hk⟩ := ih rest buf
        exact ⟨k + 1, by simpa [wfpAux, capturedOf] using hk⟩
      | chunk s =>
        rw [wfpAux]
        split
        · exact ⟨1, by simp [capturedOf]⟩
        · obtain ⟨k, hk⟩ := ih rest (buf ++ s)
          refine ⟨k + 1, ?_⟩
          rw [hk]
          simp [capturedOf]

/-- C6: the Pattern Waiter never raises and, in all four exit cases
(pattern matched, overall timeout, EOF, process death), returns exactly
the text captured so far: the concatenation of the chunks of the
consumed prefix of the event stream.  In this embedding `waitForPattern`
is a total function — the exceptional reads (`pexpect.TIMEOUT`,
`pexpect.EOF`) and the liveness check are events it consumes, never
propagates. -/
theorem C6_waiter_returns_captured (evs : List WEv)
    (pats : List (List Char)) (timeout : Nat) :
    ∃ k, waitForPattern evs pats timeout = capturedOf (evs.take k) := by
  obtain ⟨k, hk⟩ := wfpAux_captured pats timeout evs []
  exact ⟨k, by simpa using hk⟩

/-! ### The monitoring loop of `run_cursor_agent` (lines 262-335)

Each iteration of `while True` either reads a chunk, hits the 2-second
read timeout (`pexpect.TIMEOUT`), or hits EOF.  These are modelled as
events carrying the value of `time.time()` at that iteration.  Python
times are positive reals; `last_busy_indicator_time and busy_idle_time
and busy_idle_time > 10` (line 307) therefore reduces to "a busy
marker has been seen and its idle time exceeds 10". -/

structure MCfg where
  idleTimeout : Nat
  timeout : Nat
  promptTime : Nat
  clean : Bool
deriving DecidableEq, Repr

/-- The loop state: `last_output_time`, `last_busy_indicator_time`,
`work_started`, `retry_count`, and the clean-mode `output_buffer`.
`sentCRs` counts the `child.send('\r')` calls of the retry branch,
`outputSeen` records whether any non-empty chunk has arrived, and
`streamed` records what raw mode wrote to stdout (both are ghost
fields: the Python code does not store them, they name observable
facts about the run). -/
structure MState where
  lastOutput : Nat
  lastBusy : Option Nat
  workStarted : Bool
  retryCount : Nat
  sentCRs : Nat
  outputSeen : Bool
  buffer : List (List Char)
  streamed : List (List Char)
deriving DecidableEq, Repr

inductive MEv where
  | chunk (s : List Char) (now : Nat)
  | tick (now : Nat)
  | eof (now : Nat)
deriving DecidableEq, Repr

/-- Which stopping rule broke out of the loop. -/
inductive MReason where
  | busyStop
  | idleStop
  | overall
  | eofEnd
deriving DecidableEq, Repr

/-- Line 307: the busy indicator has been seen and stopped more than
10 seconds ago. -/
def busyStopCond (st : MState) (now : Nat) : Bool :=
  match st.lastBusy with
  | none => false
  | some b => decide (now - b > 10)

/-- Lines 275-282: buffer (clean) or stream (raw) the chunk and reset
the idle clock. -/
def chunkUpd (cfg : MCfg) (st : MState) (s : List Char) (now : Nat) :
    MState :=
  { st with
    buffer := if cfg.clean then st.buffer ++ [s] else st.buffer,
    streamed := if cfg.clean then st.streamed else st.streamed ++ [s],
    lastOutput := now,
    outputSeen := true }

/-- Lines 319-324: re-send Enter and reset the idle clock. -/
def retryUpd (st : MState) (now : Nat) : MState :=
  { st with
    retryCount := st.retryCount + 1,
    sentCRs := st.sentCRs + 1,
    lastOutput := now }

/-- One iteration of the monitoring loop: `Sum.inl` continues with the
new state, `Sum.inr` breaks out of the loop.  On `pexpect.TIMEOUT` the
stopping rules of lines 307-330 run in order; note that the retry
branch (line 319) tests `work_started`, not whether output has been
seen, and that it does not break, so the overall-timeout check still
runs in the same iteration. -/
def mstep (cfg : MCfg) (st : MState) : MEv → MState ⊕ (MReason × MState)
  | MEv.chunk s now =>
    if s.isEmpty then Sum.inl st
    else if containsSub s ['.', '.', '.'] then
      Sum.inl { chunkUpd cfg st s now with
                lastBusy := some now, workStarted := true }
    else Sum.inl (chunkUpd cfg st s now)
  | MEv.tick now =>
    if busyStopCond st now then Sum.inr (MReason.busyStop, st)
    else if st.workStarted && decide (now - st.lastOutput > cfg.idleTimeout)
    then Sum.inr (MReason.idleStop, st)
    else if !st.workStarted && decide (now - st.lastOutput > 10) &&
        decide (st.retryCount < 3) then
      if decide (now - cfg.promptTime > cfg.timeout) then
        Sum.inr (MReason.overall, retryUpd st now)
      else Sum.inl (retryUpd st now)
    else if decide (now - cfg.promptTime > cfg.timeout) then
      Sum.inr (MReason.overall, st)
    else Sum.inl st
  | MEv.eof _ => Sum.inr (MReason.eofEnd, st)

/-- The state after one iteration, whether or not the loop broke. -/
def mstepSt (cfg : MCfg) (st : MState) (e : MEv) : MState :=
  match mstep cfg st e with
  | Sum.inl st2 => st2
  | Sum.inr (_, st2) => st2

/-- Run the monitoring loop over a list of events; `none` means the
loop had not yet terminated when the given events were exhausted. -/
def runMonitor (cfg : MCfg) : MState → List MEv → MState × Option MReason
  | st, [] => (st, none)
  | st, e :: rest =>
    match mstep cfg st e with
    | Sum.inl st2 => runMonitor cfg st2 rest
    | Sum.inr (r, st2) => (st2, some r)

/-- The state at lines 263-267, entered with the current time. -/
def initMState (startTime : Nat) : MState :=
  { lastOutput := startTime, lastBusy := none, workStarted := false,
    retryCount := 0, sentCRs := 0, outputSeen := false,
    buffer := [], streamed := [] }

theorem mstepSt_inl {cfg : MCfg} {st : MState} {e : MEv} {st2 : MState}
    (h : mstep cfg st e = Sum.inl st2) : mstepSt cfg st e = st2 := by
  unfold mstepSt
  rw [h]

theorem mstepSt_inr {cfg : MCfg} {st : MState} {e : MEv} {r : MReason}
    {st2 : MState} (h : mstep cfg st e = Sum.inr (r, st2)) :
    mstepSt cfg st e = st2 := by
  unfold mstepSt
  rw [h]

/-- Reachability invariant of the monitor: `work_started` and a
recorded busy time both imply that some non-empty chunk has arrived. -/
def MInv (st : MState) : Prop :=
  (st.workStarted = true → st.outputSeen = true) ∧
  (st.lastBusy.isSome = true → st.outputSeen = true)

theorem MInv_init (startTime : Nat) : MInv (initMState startTime) := by
  constructor <;> intro h <;> simp [initMState] at h

/-- After a chunk event the state is one of three explicit updates. -/
theorem mstepSt_chunk (cfg : MCfg) (st : MState) (s : List Char)
    (now : Nat) :
    mstepSt cfg st (MEv.chunk s now) = st ∨
    mstepSt cfg st (MEv.chunk s now) =
      { chunkUpd cfg st s now with
        lastBusy := some now, workStarted := true } ∨
    mstepSt cfg st (MEv.chunk s now) = chunkUpd cfg st s now := by
  unfold mstepSt mstep
  by_cases h1 : s.isEmpty = true
  · simp [h1]
  · by_cases h2 : containsSub s ['.', '.', '.'] = true <;> simp [h1, h2]

/-- After a tick event the state is unchanged or a retry update, the
latter only while fewer than 3 retries have happened. -/
theorem mstepSt_tick (cfg : MCfg) (st : MState) (now : Nat) :
    mstepSt cfg st (MEv.tick now) = st ∨
    (st.retryCount < 3 ∧ mstepSt cfg st (MEv.tick now) = retryUpd st now) := by
  unfold mstepSt mstep
  by_cases hb : busyStopCond st now = true
  · simp [hb]
  · by_cases hi :
        (st.workStarted && decide (now - st.lastOutput > cfg.idleTimeout)) = true
    · simp [hb, hi]
    · by_cases hr : (!st.workStarted && decide (now - st.lastOutput > 10) &&
          decide (st.retryCount < 3)) = true
      · have hparts : st.workStarted = false ∧ 10 < now - st.lastOutput ∧
            st.retryCount < 3 := by
          simp only [Bool.and_eq_true, Bool.not_eq_true', decide_eq_true_eq]
            at hr
          exact ⟨hr.1.1, hr.1.2, hr.2⟩
        by_cases ho : decide (now - cfg.promptTime > cfg.timeout) = true <;>
          simp [hb, hi, ho, hparts.1, hparts.2.1, hparts.2.2]
      · by_cases ho : decide (now - cfg.promptTime > cfg.timeout) = true <;>
          simp [hb, hi, hr, ho]

theorem mstepSt_eof (cfg : MCfg) (st : MState) (now : Nat) :
    mstepSt cfg st (MEv.eof now) = st := rfl

theorem MInv_step (cfg : MCfg) (st : MState) (e : MEv) (h : MInv st) :
    MInv (mstepSt cfg st e) := by
  obtain ⟨h1, h2⟩ := h
  cases e with
  | chunk s now =>
    rcases mstepSt_chunk cfg st s now with heq | heq | heq <;> rw [heq]
    · exact ⟨h1, h2⟩
    · exact ⟨fun _ => rfl, fun _ => rfl⟩
    · exact ⟨fun _ => rfl, fun _ => rfl⟩
  | tick now =>
    rcases mstepSt_tick cfg st now with heq | ⟨-, heq⟩ <;> rw [heq]
    · exact ⟨h1, h2⟩
    · exact ⟨h1, h2⟩
  | eof now =>
    rw [mstepSt_eof]
    exact ⟨h1, h2⟩

/-- The retry counter and the number of re-sent Enters stay locked
together and never exceed 3. -/
theorem mstepSt_retry_inv (cfg : MCfg) (st : MState) (e : MEv)
    (h1 : st.retryCount ≤ 3) (h2 : st.sentCRs = st.retryCount) :
    (mstepSt cfg st e).retryCount ≤ 3 ∧
      (mstepSt cfg st e).sentCRs = (mstepSt cfg st e).retryCount := by
  cases e with
  | chunk s now =>
    rcases mstepSt_chunk cfg st s now with heq | heq | heq <;> rw [heq] <;>
      simpa [chunkUpd] using ⟨h1, h2⟩
  | tick now =>
    rcases mstepSt_tick cfg st now with heq | ⟨hr3, heq⟩ <;> rw [heq]
    · exact ⟨h1, h2⟩
    · constructor
      · simp only [retryUpd]
        omega
      · simp [retryUpd, h2]
  | eof now =>
    rw [mstepSt_eof]
    exact ⟨h1, h2⟩

theorem runMonitor_retry_bound (cfg : MCfg) :
    ∀ (evs : List MEv) (st : MState),
      st.retryCount ≤ 3 → st.sentCRs = st.retryCount →
      (runMonitor cfg st evs).1.sentCRs ≤ 3 := by
  intro evs
  induction evs with
  | nil =>
    intro st h1 h2
    simpa [runMonitor, h2] using h1
  | cons e rest ih =>
    intro st h1 h2
    cases hm : mstep cfg st e with
    | inl st2 =>
      have hinv := mstepSt_retry_inv cfg st e h1 h2
      rw [mstepSt_inl hm] at hinv
      simpa [runMonitor, hm] using ih st2 hinv.1 hinv.2
    | inr p =>
      obtain ⟨r, st2⟩ := p
      have hinv := mstepSt_retry_inv cfg st e h1 h2
      rw [mstepSt_inr hm] at hinv
      simp only [runMonitor, hm]
      rw [hinv.2]
      exact hinv.1

/-- Under the bootstrap conditions (nothing seen, idle above 10,
retries left) a tick performs exactly the retry update. -/
theorem mstep_tick_retry (cfg : MCfg) (st : MState) (now : Nat)
    (hws : st.workStarted = false) (hlb : st.lastBusy = none)
    (hidle : now - st.lastOutput > 10) (hretry : st.retryCount < 3) :
    mstepSt cfg st (MEv.tick now) = retryUpd st now := by
  have hb : busyStopCond st now = false := by simp [busyStopCond, hlb]
  unfold mstepSt mstep
  by_cases ho : decide (now - cfg.promptTime > cfg.timeout) = true <;>
    simp [hb, hws, hidle, hretry, ho]

/-! ### Claims about the monitoring loop -/

def c2cfg : MCfg :=
  { idleTimeout := 5, timeout := 1000, promptTime := 0, clean := true }

def c2st : MState := mstepSt c2cfg (initMState 0) (MEv.chunk "hello".toList 1)

/-- C2 counterexample: after a single busy-marker-free chunk, output
has been seen and the idle time at the next tick (7) exceeds the
configured idle timeout (5), yet the monitor does NOT declare
completion: the step continues the loop unchanged, because the
idle-timeout rule (line 313) tests `work_started`, not whether output
was seen. -/
theorem C2_counterexample :
    c2st.outputSeen = true ∧ c2st.workStarted = false ∧
    8 - c2st.lastOutput > c2cfg.idleTimeout ∧
    mstep c2cfg c2st (MEv.tick 8) = Sum.inl c2st := by
  decide

/-- C2 (amended): whenever a busy marker has been observed
(`work_started` true) and the general idle time exceeds the configured
idle timeout, the monitor declares completion at that tick (via the
busy-stop rule or the idle rule); output alone, without a busy marker,
does not satisfy this rule. -/
theorem C2_idle_completion (cfg : MCfg) (st : MState) (now : Nat)
    (hws : st.workStarted = true)
    (hidle : now - st.lastOutput > cfg.idleTimeout) :
    ∃ r st2, mstep cfg st (MEv.tick now) = Sum.inr (r, st2) := by
  by_cases hb : busyStopCond st now = true
  · exact ⟨MReason.busyStop, st, by simp [mstep, hb]⟩
  · exact ⟨MReason.idleStop, st, by simp [mstep, hb, hws, hidle]⟩

def c2wst : MState :=
  mstepSt c2cfg (initMState 0) (MEv.chunk "working...".toList 1)

/-- Witness for C2: a state that has seen the busy marker and been
idle for 39 > 5 seconds is stopped. -/
theorem C2_idle_completion_w :
    ∃ r st2, mstep c2cfg c2wst (MEv.tick 40) = Sum.inr (r, st2) :=
  C2_idle_completion c2cfg c2wst 40 (by decide) (by decide)

def c9cfg : MCfg :=
  { idleTimeout := 60, timeout := 600, promptTime := 0, clean := true }

def c9st : MState :=
  mstepSt c9cfg (mstepSt c9cfg (initMState 0) (MEv.chunk ['.'] 1))
    (MEv.chunk ['.', '.'] 2)

/-- C9: busy-marker detection is per-chunk, not over the accumulated
stream.  After the chunks `.` and `..` the concatenated output contains
`...`, yet `work_started` is false and the busy clock was never set —
whereas the Pattern Waiter, fed the same two chunks, matches `...`
against its accumulating buffer. -/
theorem C9_busy_detection_per_chunk :
    c9st.workStarted = false ∧ c9st.lastBusy = none ∧
    c9st.buffer.flatten = ['.', '.', '.'] ∧
    containsSub c9st.buffer.flatten ['.', '.', '.'] = true ∧
    waitForPattern [WEv.chunk ['.'], WEv.chunk ['.', '.']]
      [['.', '.', '.']] 10 = ['.', '.', '.'] ∧
    containsSub ['.', '.', '.'] ['.', '.', '.'] = true := by
  decide

/-! ### End of `run_cursor_agent` (lines 348-362) and the whole run -/

def errNoMeaningful : String :=
  "Error: No meaningful output captured from cursor-agent."

def errNoOutput : String :=
  "Error: cursor-agent did not produce any output."

def errHintDirect : String :=
  "Hint: Try running 'cursor-agent --model <model>' directly to check if it works."

/-- Lines 348-360: what reaches stdout (the cleaned block, if any) and
stderr (error and hint lines) after monitoring ends.  `print(cleaned)`
runs only when `cleaned.strip()` is truthy; when it is falsy the error
line appears only if `work_started` is false; the hint line appears
whenever `work_started` is false. -/
def finalEmit (clean : Bool) (buffer : List (List Char))
    (prompt : List Char) (ws : Bool) : Option (List Char) × List String :=
  if clean && !buffer.isEmpty then
    if !(pyStrip (cleanOutputL buffer.flatten (some prompt))).isEmpty then
      (some (cleanOutputL buffer.flatten (some prompt)),
       if !ws then [errHintDirect] else [])
    else if !ws then (none, [errNoMeaningful, errHintDirect])
    else (none, [])
  else if !ws then (none, [errNoOutput, errHintDirect])
  else (none, [])

/-- The pty-level actions named by the claims.  `pexpect.spawn` is
called at exactly one site (line 168), never inside the monitoring
loop. -/
inductive Act where
  | spawn
  | shiftTab
  | sendPrompt
deriving DecidableEq, Repr

structure RunCfg where
  prompt : List Char
  timeout : Nat
  idleTimeout : Nat
  clean : Bool
  noAutorun : Bool
deriving DecidableEq, Repr

/-- One invocation's environment-determined observations: whether the
spawn succeeds, the liveness-check results at each gated step, the
event streams seen by the two `wait_for_pattern` calls, and the
monitoring-loop events. -/
structure RunInput where
  spawnOk : Bool
  aliveAfterSpawn : Bool
  initEvents : List WEv
  aliveAfterInit : Bool
  drainEof : Bool
  aliveAfterAutorun : Bool
  aliveAfterPrompt : Bool
  procEvents : List WEv
  aliveAfterProc : Bool
  startTime : Nat
  monitorEvents : List MEv
deriving DecidableEq, Repr

structure RunResult where
  code : Nat
  ws : Bool
  stdoutText : Option (List Char)
  stderrLines : List String
  actions : List Act
deriving DecidableEq, Repr

def tuiReadyPatterns : List (List Char) :=
  ["Auto-run", "│", "→", "shift+tab", "/ commands"].map String.toList

def processingPatterns : List (List Char) :=
  ["...", "Thinking", "Running", "Generating", "tokens"].map String.toList

/-- `[Act.spawn]`, plus the Shift+Tab toggle unless `--no-autorun`. -/
def preActs (cfg : RunCfg) : List Act :=
  if cfg.noAutorun then [Act.spawn] else [Act.spawn, Act.shiftTab]

/-- `run_cursor_agent` (lines 152-370): the gated protocol followed by
the monitoring loop and the final output phase.  A failed spawn raises
out of the function (line 168 precedes the `try`), which makes the
interpreter exit with status 1; each in-function failure `return 1`
prints the corresponding message.  The result is `none` when the
monitoring loop has not terminated on the supplied events. -/
def run (cfg : RunCfg) (inp : RunInput) : Option RunResult :=
  if !inp.spawnOk then
    some { code := 1, ws := false, stdoutText := none, stderrLines := [],
           actions := [Act.spawn] }
  else if !inp.aliveAfterSpawn then
    some { code := 1, ws := false, stdoutText := none,
           stderrLines := ["Error: cursor-agent process died immediately. Check if cursor-agent works in this environment."],
           actions := [Act.spawn] }
  else if !(tuiReadyPatterns.any (fun p =>
        containsSub (waitForPattern inp.initEvents tuiReadyPatterns 15) p))
      && !inp.aliveAfterInit then
    some { code := 1, ws := false, stdoutText := none,
           stderrLines := ["Error: cursor-agent process died during initialization."],
           actions := [Act.spawn] }
  else if !cfg.noAutorun && inp.drainEof then
    some { code := 1, ws := false, stdoutText := none,
           stderrLines := ["Error: cursor-agent process died unexpectedly after Shift+Tab.",
                           "Hint: Try --no-autorun to skip auto-run toggle."],
           actions := [Act.spawn, Act.shiftTab] }
  else if !cfg.noAutorun && !inp.aliveAfterAutorun then
    some { code := 1, ws := false, stdoutText := none,
           stderrLines := ["Error: cursor-agent process is not running."],
           actions := [Act.spawn, Act.shiftTab] }
  else if !inp.aliveAfterPrompt then
    some { code := 1, ws := false, stdoutText := none,
           stderrLines := ["Error: cursor-agent process died after sending prompt."],
           actions := preActs cfg ++ [Act.sendPrompt] }
  else if !inp.aliveAfterProc then
    some { code := 1, ws := false, stdoutText := none,
           stderrLines := ["Error: cursor-agent process died while waiting for response."],
           actions := preActs cfg ++ [Act.sendPrompt] }
  else
    match runMonitor
        { idleTimeout := cfg.idleTimeout, timeout := cfg.timeout,
          promptTime := inp.startTime, clean := cfg.clean }
        (initMState inp.startTime) inp.monitorEvents with
    | (_, none) => none
    | (stF, some _) =>
      some { code := if stF.workStarted then 0 else 1,
             ws := stF.workStarted,
             stdoutText :=
               if cfg.clean then
                 (finalEmit cfg.clean stF.buffer cfg.prompt stF.workStarted).1
               else some stF.streamed.flatten,
             stderrLines :=
               (finalEmit cfg.clean stF.buffer cfg.prompt stF.workStarted).2,
             actions := preActs cfg ++ [Act.sendPrompt] }

/-! ### Claims about the whole invocation -/

/-- C1: an invocation exits 0 iff the busy/activity marker was observed
(`work_started` true at the end of monitoring); every gate failure —
spawn failure, child death at a gated protocol step — and every
completed session without activity exits 1, regardless of what output
was produced. -/
theorem C1_exit_status (cfg : RunCfg) (inp : RunInput) (r : RunResult)
    (h : run cfg inp = some r) : r.code = 0 ↔ r.ws = true := by
  unfold run at h
  repeat' split at h
  all_goals try exact Option.noConfusion h
  all_goals simp only [Option.some.injEq] at h
  all_goals subst h
  all_goals simp_all

def c1cfg : RunCfg :=
  { prompt := "pr".toList, timeout := 600, idleTimeout := 60,
    clean := true, noAutorun := true }

def c1inp : RunInput :=
  { spawnOk := true, aliveAfterSpawn := true,
    initEvents := [WEv.chunk "Auto-run".toList],
    aliveAfterInit := true, drainEof := false, aliveAfterAutorun := true,
    aliveAfterPrompt := true, procEvents := [], aliveAfterProc := true,
    startTime := 0,
    monitorEvents := [MEv.chunk "Done...".toList 1, MEv.eof 2] }

def c1res : RunResult :=
  { code := 0, ws := true, stdoutText := some "Done...".toList,
    stderrLines := [], actions := [Act.spawn, Act.sendPrompt] }

/-- Witness for C1: a session that saw the busy marker exits 0. -/
theorem C1_exit_status_w : c1res.code = 0 ↔ c1res.ws = true :=
  C1_exit_status c1cfg c1inp c1res (by decide)

/-- C7: (i) when no output has been seen yet, the idle time exceeds the
10-second bootstrap threshold and fewer than 3 retries have happened,
the tick re-sends the submit carriage return (one more `send('\r')`)
and resets the idle clock; (ii) over any whole monitoring run at most 3
such re-sends occur; (iii) an invocation spawns the child exactly once
— a dead child is never respawned. -/
theorem C7_bootstrap_retries :
    (∀ (cfg : MCfg) (st : MState) (now : Nat),
        MInv st → st.outputSeen = false → now - st.lastOutput > 10 →
        st.retryCount < 3 →
        (mstepSt cfg st (MEv.tick now)).sentCRs = st.sentCRs + 1 ∧
        (mstepSt cfg st (MEv.tick now)).retryCount = st.retryCount + 1 ∧
        (mstepSt cfg st (MEv.tick now)).lastOutput = now) ∧
    (∀ (cfg : MCfg) (evs : List MEv) (st : MState),
        st.retryCount ≤ 3 → st.sentCRs = st.retryCount →
        (runMonitor cfg st evs).1.sentCRs ≤ 3) ∧
    (∀ (cfg : RunCfg) (inp : RunInput) (r : RunResult),
        run cfg inp = some r → r.actions.count Act.spawn = 1) := by
  refine ⟨?_, ?_, ?_⟩
  · intro cfg st now hinv hseen hidle hr
    have hws : st.workStarted = false := by
      cases hw : st.workStarted
      · rfl
      · rw [hinv.1 hw] at hseen
        cases hseen
    have hlb : st.lastBusy = none := by
      cases hl : st.lastBusy
      · rfl
      · have hsome := hinv.2 (by simp [hl])
        rw [hsome] at hseen
        cases hseen
    rw [mstep_tick_retry cfg st now hws hlb hidle hr]
    simp [retryUpd]
  · intro cfg evs st h1 h2
    exact runMonitor_retry_bound cfg evs st h1 h2
  · intro cfg inp r h
    unfold run at h
    repeat' split at h
    all_goals try exact Option.noConfusion h
    all_goals simp only [Option.some.injEq] at h
    all_goals subst h
    all_goals simp [preActs]
    all_goals split <;> simp

def c7cfg : MCfg :=
  { idleTimeout := 60, timeout := 600, promptTime := 0, clean := true }

def c7st : MState := initMState 0

/-- Witness for C7: from the initial monitor state, a tick at time 11
re-sends the carriage return and resets the idle clock. -/
theorem C7_bootstrap_retries_w :
    (mstepSt c7cfg c7st (MEv.tick 11)).sentCRs = c7st.sentCRs + 1 ∧
    (mstepSt c7cfg c7st (MEv.tick 11)).retryCount = c7st.retryCount + 1 ∧
    (mstepSt c7cfg c7st (MEv.tick 11)).lastOutput = 11 :=
  C7_bootstrap_retries.1 c7cfg c7st 11 (by constructor <;> decide)
    (by decide) (by decide) (by decide)

def c8cfg : RunCfg :=
  { prompt := "pr".toList, timeout := 600, idleTimeout := 60,
    clean := true, noAutorun := true }

def c8inp : RunInput :=
  { spawnOk := true, aliveAfterSpawn := true,
    initEvents := [WEv.chunk "Auto-run".toList],
    aliveAfterInit := true, drainEof := false, aliveAfterAutorun := true,
    aliveAfterPrompt := true, procEvents := [], aliveAfterProc := true,
    startTime := 0,
    monitorEvents := [MEv.chunk "Thinking...".toList 1, MEv.eof 2] }

/-- C8 counterexample: a clean-mode invocation whose only chunk is
`Thinking...` sets `work_started` (it contains `...`), reconstruction
is empty (the chunk is denylisted chrome), and the program prints
NOTHING: no block on stdout and no error line on stderr — contradicting
the claim that an error line appears whenever no text is produced. -/
theorem C8_counterexample :
    cleanOutputL "Thinking...".toList (some "pr".toList) = [] ∧
    run c8cfg c8inp =
      some { code := 0, ws := true, stdoutText := none, stderrLines := [],
             actions := [Act.spawn, Act.sendPrompt] } := by
  decide

/-- C8 (amended): in clean mode, if reconstruction yields text that is
non-empty after trimming, it is printed as a single block on stdout;
otherwise nothing is printed on stdout, and a descriptive error line is
printed on stderr exactly when no busy marker was observed
(`work_started` false) — with `work_started` true and an empty
reconstruction, nothing is printed at all. -/
theorem C8_clean_mode_emission (buffer : List (List Char))
    (prompt : List Char) (ws : Bool) :
    ((pyStrip (cleanOutputL buffer.flatten (some prompt))).isEmpty = false →
      buffer ≠ [] →
      (finalEmit true buffer prompt ws).1 =
        some (cleanOutputL buffer.flatten (some prompt))) ∧
    ((pyStrip (cleanOutputL buffer.flatten (some prompt))).isEmpty = true ∨
        buffer = [] →
      (finalEmit true buffer prompt ws).1 = none ∧
      ((finalEmit true buffer prompt ws).2 ≠ [] ↔ ws = false)) := by
  cases buffer with
  | nil =>
    constructor
    · intro _ hne
      exact absurd rfl hne
    · intro _
      cases ws <;> simp [finalEmit]
  | cons b bs =>
    constructor
    · intro hcl _
      have hne2 : pyStrip (cleanOutputL ((b :: bs).flatten)
          (some prompt)) ≠ [] := by
        intro he
        rw [he] at hcl
        simp at hcl
      simp only [List.flatten_cons] at hne2
      simp [finalEmit, hne2]
    · intro hor
      have heq : pyStrip (cleanOutputL ((b :: bs).flatten)
          (some prompt)) = [] := by
        rcases hor with hc | hc
        · simpa using hc
        · exact absurd hc (by simp)
      simp only [List.flatten_cons] at heq
      cases ws <;> simp [finalEmit, heq]

/-- Witness for C8: with buffer `Done.` and prompt `pr`, the cleaned
block is printed on stdout. -/
theorem C8_clean_mode_emission_w :
    (finalEmit true ["Done.".toList] "pr".toList true).1 =
      some (cleanOutputL (["Done.".toList]).flatten (some "pr".toList)) :=
  (C8_clean_mode_emission ["Done.".toList] "pr".toList true).1 (by decide)
    (by decide)
